import Mathlib

/- Shallow embedding of the test-quest execution-and-verification engine
   (src/bin/test_quest): the assertion evaluator (asserter.rs), the
   execution coordinator (runner.rs) and the per-engine row decoders
   (setup/database/any_db/{postgres,mysql}.rs). -/

namespace TestQuest

/- Model of serde_json::Value: a recursive JSON tree. Numbers are carried
   as integers (the claims under study only use structural equality and
   the default value, which is null). -/
mutual

inductive Json where
  | null : Json
  | bool (b : Bool) : Json
  | num (n : Int) : Json
  | str (s : String) : Json
  | arr (xs : JsonList) : Json
  | obj (xs : JsonObj) : Json

inductive JsonList where
  | nil : JsonList
  | cons (hd : Json) (tl : JsonList) : JsonList

inductive JsonObj where
  | nil : JsonObj
  | cons (key : String) (val : Json) (tl : JsonObj) : JsonObj

end

deriving instance DecidableEq for Json
deriving instance DecidableEq for JsonList
deriving instance DecidableEq for JsonObj

/- asserter.rs: TestResult. -/
inductive TestResult where
  | Pass
  | Fail
deriving DecidableEq, Repr

/- parser.rs: StringOrStrings (the `expect` payload of a SQL assertion). -/
inductive StringOrStrings where
  | Single (s : String)
  | Multiple (v : List String)
deriving DecidableEq, Repr

/- reqwest HeaderMap, modelled as an ordered multi-list of (name, value)
   pairs; `get` returns the first value for a name, and value comparison
   is byte-for-byte, i.e. string equality in this model. -/
abbrev HeaderMap := List (String × String)

def HeaderMap.get (m : HeaderMap) (k : String) : Option String :=
  (List.find? (fun p => p.1 = k) m).map (fun p => p.2)

/- validator.rs / asserter.rs: the Assertion enum, as the asserter uses it
   (`assert_sql` takes `expect: &StringOrStrings, got: Option<&Vec<String>>`). -/
inductive Assertion where
  | Status (code : Int)
  | Headers (expected : HeaderMap)
  | Sql (query : String) (expect : StringOrStrings) (got : Option (List String))
  | Json (v : Json)
  | RequestFailed
deriving DecidableEq

/- asserter.rs: the Actual payload attached to an AssertResult. -/
inductive Actual where
  | Header (h : HeaderMap)
  | Status (s : Nat)
  | Sql (rows : List String)
  | Json (v : Json)
  | RequestFailed (msg : String)
deriving DecidableEq

/- asserter.rs: AssertResult. -/
structure AssertResult where
  status : TestResult
  expected : Assertion
  actual : Actual
deriving DecidableEq

/- runner.rs: CapturedResponse, as consumed by the asserter. The status is
   the numeric value of a reqwest StatusCode (valid codes are 100..=999). -/
structure CapturedResponse where
  status : Nat
  headers : HeaderMap
  body_text : String
  body_json : Option Json
deriving DecidableEq

/- runner.rs: RunnerResult, the unit of work received by the asserter. -/
structure RunnerResult where
  name : String
  method : String
  url : String
  response : Option CapturedResponse
  error : Option String
  assertions : List Assertion
deriving DecidableEq

/- asserter.rs assert_json: Pass when the parsed body equals the declared
   value; when the body failed to parse as JSON (got = none) the source
   returns Pass unconditionally. -/
def assert_json (expected : Json) (got : Option Json) : TestResult :=
  match got with
  | some got => if got = expected then TestResult.Pass else TestResult.Fail
  | none => TestResult.Pass

/- asserter.rs assert_sql. Single: fail on missing got; empty expectation
   against an empty row list passes; otherwise exactly one row equal to
   the expectation. Multiple: row count must equal the expectation count
   and each zipped position must match. -/
def assert_sql (expect : StringOrStrings) (got : Option (List String)) : TestResult :=
  match expect with
  | StringOrStrings.Single expected =>
    match got with
    | none => TestResult.Fail
    | some got =>
      if expected.isEmpty && got.isEmpty then TestResult.Pass
      else
        match got with
        | [g] => if g = expected then TestResult.Pass else TestResult.Fail
        | _ => TestResult.Fail
  | StringOrStrings.Multiple expectedItems =>
    match got with
    | none => TestResult.Fail
    | some got =>
      if got.length = expectedItems.length then
        if (expectedItems.zip got).all (fun p => p.1 = p.2) then TestResult.Pass
        else TestResult.Fail
      else TestResult.Fail

/- asserter.rs assert_header: for each declared (key, value) pair, a
   missing actual key is skipped; a present actual key whose first value
   differs byte-for-byte fails immediately; otherwise pass. -/
def assert_header (expected actual : HeaderMap) : TestResult :=
  match expected with
  | [] => TestResult.Pass
  | (key, value_a) :: rest =>
    match HeaderMap.get actual key with
    | none => assert_header rest actual
    | some value_b =>
      if value_a = value_b then assert_header rest actual else TestResult.Fail

/- http::StatusCode::from_u16 accepts exactly the codes 100..=999. -/
def statusCodeFromU16 (n : Nat) : Option Nat :=
  if 100 ≤ n ∧ n ≤ 999 then some n else none

/- Rust `as u16` on an i32: keep the low 16 bits (two's complement). -/
def i32AsU16 (s : Int) : Nat := (s % 65536).toNat

/- asserter.rs assert_status: the declared i32 is cast `as u16`, then
   validated via StatusCode::from_u16 (invalid gives Fail), then compared
   against the actual code. -/
def assert_status (s : Int) (status : Nat) : TestResult :=
  match statusCodeFromU16 (i32AsU16 s) with
  | none => TestResult.Fail
  | some inncomming_status_code =>
    if inncomming_status_code ≠ status then TestResult.Fail else TestResult.Pass

/- asserter.rs, the body of the per-assertion map in `Assert::assert`:
   evaluates one declared assertion against a response and packages the
   actual payload. The `Assertion::RequestFailed => todo!()` arms of the
   source are modelled as `none` (the source panics there). -/
def evalAssertion (response : CapturedResponse) (a : Assertion) : Option AssertResult :=
  match a with
  | Assertion.Status expected_status =>
    some { status := assert_status expected_status response.status
           expected := a
           actual := Actual.Status response.status }
  | Assertion.Headers expected_headermap =>
    some { status := assert_header expected_headermap response.headers
           expected := a
           actual := Actual.Header response.headers }
  | Assertion.Sql _query expect got =>
    some { status := assert_sql expect got
           expected := a
           actual := Actual.Sql (got.getD []) }
  | Assertion.Json expected_json =>
    some { status := assert_json expected_json response.body_json
           expected := a
           actual := Actual.Json (response.body_json.getD Json.null) }
  | Assertion.RequestFailed => none

/- asserter.rs `impl Assert for RunnerResult`: a carried transport error
   short-circuits to a single synthetic failing result; a missing response
   without an error does the same with the empty message; otherwise each
   declared assertion is evaluated. -/
def RunnerResult.assert (r : RunnerResult) : Option (List AssertResult) :=
  match r.error with
  | some error =>
    some [{ status := TestResult.Fail
            expected := Assertion.RequestFailed
            actual := Actual.RequestFailed error }]
  | none =>
    match r.response with
    | none =>
      some [{ status := TestResult.Fail
              expected := Assertion.RequestFailed
              actual := Actual.RequestFailed "" }]
    | some response => r.assertions.mapM (evalAssertion response)

namespace Runner

/- runner.rs sees the Assertion enum with a single-string `got` field:
   run_sql_assertions fills it with `values.join(", ")`. -/
inductive Assertion where
  | Status (code : Int)
  | Headers (expected : HeaderMap)
  | Sql (query : String) (expect : StringOrStrings) (got : Option String)
  | Json (v : TestQuest.Json)
  | RequestFailed
deriving DecidableEq

/- runner.rs RunnerError (the channel payload type is irrelevant here). -/
inductive RunnerError where
  | ChannelError (msg : String)
  | DatabaseError (msg : String)
deriving DecidableEq, Repr

/- One observable effect of the coordinator, in program order: a schema
   reset, a hook SQL statement, the HTTP send of a test, a SQL-assertion
   query, and the downstream channel send of a test outcome. -/
inductive Event where
  | reset
  | hookSql (stmt : String)
  | httpSend (name : String)
  | assertQuery (q : String)
  | send (name : String)
deriving DecidableEq, Repr

/- The first-column decode attempts made by run_sql_assertions on one
   returned row: try_get::<String>, then i64, then f64 (carried by its
   Display rendering), then bool, then try_get::<Option<String>> whose
   Err is modelled as none. -/
structure FirstCol where
  asString : Option String
  asI64 : Option Int
  asF64 : Option String
  asBool : Option Bool
  asOptString : Option (Option String)
deriving DecidableEq

/- runner.rs run_sql_assertions, the per-row closure: the chain of
   try_get attempts on column 0, ending in the null / unsupported split
   on `try_get::<Option<String>>(0).ok().flatten().is_none()`. -/
def stringifyFirstCol (c : FirstCol) : String :=
  match c.asString with
  | some s => s
  | none =>
    match c.asI64 with
    | some i => toString i
    | none =>
      match c.asF64 with
      | some f => f
      | none =>
        match c.asBool with
        | some b => if b then "true" else "false"
        | none =>
          if c.asOptString.join.isNone then "null" else "<unsupported type>"

/- The environment the coordinator runs against: `exec` is
   sqlx::query(..).execute, `fetchRows` is the try_map-to-String
   fetch_all used for table enumeration, `fetchAssert` is the fetch_all
   used for SQL assertions, and `http` is the HTTP client keyed by test
   name. Oracles are pure: the claims proved below are about sequencing
   and data flow, not about database state evolution. -/
structure World where
  exec : String → Except String Unit
  fetchRows : String → Except String (List String)
  fetchAssert : String → Except String (List FirstCol)
  http : String → Except String CapturedResponse

/- validator.rs BeforeEach, as consumed by run_tests. -/
structure BeforeEach where
  reset_db : Option Bool
  sql : Option (List String)
deriving DecidableEq

/- validator.rs ValidatedTests, restricted to the fields run_tests reads. -/
structure ValidatedTests where
  before_run : Option (List String)
  name : String
  method : String
  url : String
  assertions : List Assertion

/- validator.rs TestGroups. -/
structure TestGroups where
  name : String
  before_group : Option BeforeEach
  tests : List ValidatedTests

/- runner.rs RunnerResult as produced by run_tests. -/
structure RunnerResult where
  name : String
  method : String
  url : String
  response : Option CapturedResponse
  error : Option String
  assertions : List Assertion
deriving DecidableEq

/- runner.rs run_sql: execute each statement in order; the first database
   error aborts with RunnerError::DatabaseError. -/
def run_sql (exec : String → Except String Unit) :
    List String → Except RunnerError (List Event)
  | [] => Except.ok []
  | s :: rest =>
    match exec s with
    | Except.error e => Except.error (RunnerError.DatabaseError e)
    | Except.ok _ => (run_sql exec rest).map (fun evs => Event.hookSql s :: evs)

/- runner.rs run_sql_assertions, the `got` value computed for one SQL
   assertion: the stringified first column of each returned row joined
   with ", "; a query error becomes the text "SQL error: ...". -/
def got_string (fetch : String → Except String (List FirstCol)) (query : String) : String :=
  match fetch query with
  | Except.ok rows => String.intercalate ", " (rows.map stringifyFirstCol)
  | Except.error e => "SQL error: " ++ e

/- runner.rs run_sql_assertions: walks the assertion list in place, fills
   `got := Some(..)` on every Sql assertion, leaves the rest untouched,
   and has no error return. -/
def run_sql_assertions (fetch : String → Except String (List FirstCol)) :
    List Assertion → List Event × List Assertion
  | [] => ([], [])
  | a :: rest =>
    let step := run_sql_assertions fetch rest
    match a with
    | Assertion.Sql query expect _got =>
      (Event.assertQuery query :: step.1,
       Assertion.Sql query expect (some (got_string fetch query)) :: step.2)
    | other => (step.1, other :: step.2)

/- runner.rs reset_database: the literal query texts it issues. -/
def sqliteMasterQuery : String :=
  "SELECT name FROM sqlite_master WHERE type=\x27table\x27 AND name NOT LIKE \x27sqlite_%\x27"

def infoSchemaQuery : String :=
  "SELECT table_name::text AS table_name FROM information_schema.tables WHERE table_schema = current_schema() AND table_type = \x27BASE TABLE\x27"

def truncateSql (table : String) : String :=
  "TRUNCATE TABLE " ++ table ++ " CASCADE"

def deleteSql (table : String) : String :=
  "DELETE FROM " ++ table

def resetSeqSqlPg (table : String) : String :=
  "DO $$ BEGIN IF EXISTS (SELECT 1 FROM pg_class WHERE relname = \x27" ++ table ++
    "_id_seq\x27) THEN EXECUTE \x27ALTER SEQUENCE " ++ table ++
    "_id_seq RESTART WITH 1\x27; END IF; END $$;"

/- A database call made by reset_database: a row-returning query or an
   execute. -/
inductive ResetEvent where
  | query (sql : String)
  | exec (sql : String)
deriving DecidableEq, Repr

/- runner.rs reset_database, table enumeration: try the SQLite catalog
   first; on error or an empty table list fall back to the
   information-schema query, whose error propagates. -/
def enumerate_tables (fetchRows : String → Except String (List String)) :
    Except String (List String) × List ResetEvent :=
  match fetchRows sqliteMasterQuery with
  | Except.ok t =>
    if t.isEmpty then
      (fetchRows infoSchemaQuery,
       [ResetEvent.query sqliteMasterQuery, ResetEvent.query infoSchemaQuery])
    else (Except.ok t, [ResetEvent.query sqliteMasterQuery])
  | Except.error _ =>
    (fetchRows infoSchemaQuery,
     [ResetEvent.query sqliteMasterQuery, ResetEvent.query infoSchemaQuery])

/- runner.rs reset_database, per-table body: TRUNCATE first; on failure
   DELETE, whose error propagates; then the Postgres sequence reset is
   executed with its result discarded (`let _ = ...`). -/
def reset_table (exec : String → Except String Unit) (table : String) :
    Except String (List ResetEvent) :=
  match exec (truncateSql table) with
  | Except.ok _ =>
    Except.ok [ResetEvent.exec (truncateSql table), ResetEvent.exec (resetSeqSqlPg table)]
  | Except.error _ =>
    match exec (deleteSql table) with
    | Except.error e => Except.error e
    | Except.ok _ =>
      Except.ok [ResetEvent.exec (truncateSql table), ResetEvent.exec (deleteSql table),
                 ResetEvent.exec (resetSeqSqlPg table)]

def reset_tables (exec : String → Except String Unit) :
    List String → Except String (List ResetEvent)
  | [] => Except.ok []
  | t :: rest =>
    match reset_table exec t with
    | Except.error e => Except.error e
    | Except.ok ev =>
      (reset_tables exec rest).map (fun evs => ev ++ evs)

/- runner.rs reset_database: enumerate, then reset each table in order. -/
def reset_database (exec : String → Except String Unit)
    (fetchRows : String → Except String (List String)) :
    Except String (List ResetEvent) :=
  match enumerate_tables fetchRows with
  | (Except.error e, _) => Except.error e
  | (Except.ok tables, ev0) =>
    (reset_tables exec tables).map (fun evs => ev0 ++ evs)

/- runner.rs run_tests, group preamble: reset the database when the hook
   says `reset_db = Some(true)` (a reset error is fatal), then run the
   hook SQL statements in order (a statement error is fatal). -/
def run_group_hook (w : World) (b : Option BeforeEach) :
    Except RunnerError (List Event) :=
  match b with
  | none => Except.ok []
  | some before =>
    match (if before.reset_db = some true then
             match reset_database w.exec w.fetchRows with
             | Except.error e => Except.error (RunnerError.DatabaseError e)
             | Except.ok _ => Except.ok [Event.reset]
           else Except.ok []) with
    | Except.error e => Except.error e
    | Except.ok ev0 =>
      match (match before.sql with
             | some stmts => run_sql w.exec stmts
             | none => Except.ok []) with
      | Except.error e => Except.error e
      | Except.ok ev1 => Except.ok (ev0 ++ ev1)

/- runner.rs run_tests, per-test body: run the per-test hook SQL, send
   the HTTP request, fill the SQL assertions via run_sql_assertions, then
   package and send one RunnerResult downstream — the same sequence
   whether the HTTP call returned Ok or Err. -/
def run_case (w : World) (t : ValidatedTests) :
    Except RunnerError (List Event × RunnerResult) :=
  match (match t.before_run with
         | some stmts => run_sql w.exec stmts
         | none => Except.ok []) with
  | Except.error e => Except.error e
  | Except.ok ev0 =>
    let httpResult := w.http t.name
    let step := run_sql_assertions w.fetchAssert t.assertions
    let rr : RunnerResult :=
      match httpResult with
      | Except.ok resp =>
        { name := t.name, method := t.method, url := t.url,
          response := some resp, error := none, assertions := step.2 }
      | Except.error err =>
        { name := t.name, method := t.method, url := t.url,
          response := none, error := some err, assertions := step.2 }
    Except.ok (ev0 ++ Event.httpSend t.name :: step.1 ++ [Event.send t.name], rr)

def run_cases (w : World) :
    List ValidatedTests → Except RunnerError (List Event × List RunnerResult)
  | [] => Except.ok ([], [])
  | t :: rest =>
    match run_case w t with
    | Except.error e => Except.error e
    | Except.ok (ev, rr) =>
      match run_cases w rest with
      | Except.error e => Except.error e
      | Except.ok (evs, rrs) => Except.ok (ev ++ evs, rr :: rrs)

/- runner.rs run_tests, one group: the group hook once, then the group's
   tests in order. -/
def run_group (w : World) (g : TestGroups) :
    Except RunnerError (List Event × List RunnerResult) :=
  match run_group_hook w g.before_group with
  | Except.error e => Except.error e
  | Except.ok ev0 =>
    match run_cases w g.tests with
    | Except.error e => Except.error e
    | Except.ok (evs, rrs) => Except.ok (ev0 ++ evs, rrs)

/- runner.rs run_tests: the groups in plan order; any error aborts. -/
def run_tests (w : World) :
    List TestGroups → Except RunnerError (List Event × List RunnerResult)
  | [] => Except.ok ([], [])
  | g :: rest =>
    match run_group w g with
    | Except.error e => Except.error e
    | Except.ok (ev, rr) =>
      match run_tests w rest with
      | Except.error e => Except.error e
      | Except.ok (evs, rrs) => Except.ok (ev ++ evs, rr ++ rrs)

end Runner

/- The queries of the Sql assertions of a case, in declaration order. -/
def sqlQueries : List Runner.Assertion → List String
  | [] => []
  | Runner.Assertion.Sql q _ _ :: rest => q :: sqlQueries rest
  | Runner.Assertion.Status _ :: rest => sqlQueries rest
  | Runner.Assertion.Headers _ :: rest => sqlQueries rest
  | Runner.Assertion.Json _ :: rest => sqlQueries rest
  | Runner.Assertion.RequestFailed :: rest => sqlQueries rest

namespace AnyDb

/- any_db.rs DbValue: the canonical cross-engine value. Floats, decimals,
   UUIDs and the chrono types are carried by their canonical renderings;
   the claims below depend only on which constructor is produced. -/
inductive DbValue where
  | I64 (v : Int)
  | F64 (v : String)
  | Boolean (b : Bool)
  | Str (s : String)
  | Bytes (bs : List Nat)
  | Decimal (d : String)
  | Uuid (u : String)
  | JsonVal (j : Json)
  | Date (d : String)
  | DateTime (d : String)
  | Timestamp (t : String)
  | Null
  | Unsupported
deriving DecidableEq

/- The wire value of one Postgres column as sqlx exposes it to try_get:
   either a typed non-null value or SQL NULL. -/
inductive PgNative where
  | int2 (v : Int)
  | int4 (v : Int)
  | int8 (v : Int)
  | float4 (v : String)
  | float8 (v : String)
  | boolean (b : Bool)
  | text (s : String)
  | uuid (u : String)
  | numeric (d : String)
  | jsonVal (j : Json)
  | bytea (bs : List Nat)
  | date (d : String)
  | timestamp (t : String)
  | timestamptz (t : String)
  | null
deriving DecidableEq

/- try_get::<T> on a Postgres column: succeeds exactly when the wire
   value is a non-null value of the requested type; SQL NULL and any
   type mismatch fail. -/
def pgTryGetI16 : PgNative → Option Int
  | PgNative.int2 v => some v
  | _ => none

def pgTryGetI32 : PgNative → Option Int
  | PgNative.int4 v => some v
  | _ => none

def pgTryGetI64 : PgNative → Option Int
  | PgNative.int8 v => some v
  | _ => none

def pgTryGetF32 : PgNative → Option String
  | PgNative.float4 v => some v
  | _ => none

def pgTryGetF64 : PgNative → Option String
  | PgNative.float8 v => some v
  | _ => none

def pgTryGetBool : PgNative → Option Bool
  | PgNative.boolean b => some b
  | _ => none

def pgTryGetString : PgNative → Option String
  | PgNative.text s => some s
  | _ => none

def pgTryGetUuid : PgNative → Option String
  | PgNative.uuid u => some u
  | _ => none

def pgTryGetDecimal : PgNative → Option String
  | PgNative.numeric d => some d
  | _ => none

def pgTryGetJson : PgNative → Option Json
  | PgNative.jsonVal j => some j
  | _ => none

def pgTryGetBytes : PgNative → Option (List Nat)
  | PgNative.bytea bs => some bs
  | _ => none

def pgTryGetDate : PgNative → Option String
  | PgNative.date d => some d
  | _ => none

def pgTryGetDateTime : PgNative → Option String
  | PgNative.timestamp t => some t
  | _ => none

def pgTryGetTimestampTz : PgNative → Option String
  | PgNative.timestamptz t => some t
  | _ => none

/- postgres.rs `From<PgRow> for AnyRow`, one column: match on the
   engine-reported type name; each recognized arm is
   try_get.map(constructor).unwrap_or(Null); anything else is
   Unsupported. -/
def pgDecodeValue (typ : String) (v : PgNative) : DbValue :=
  match typ with
  | "INT2" => ((pgTryGetI16 v).map (fun x => DbValue.I64 x)).getD DbValue.Null
  | "INT4" => ((pgTryGetI32 v).map (fun x => DbValue.I64 x)).getD DbValue.Null
  | "INT8" => ((pgTryGetI64 v).map (fun x => DbValue.I64 x)).getD DbValue.Null
  | "FLOAT4" => ((pgTryGetF32 v).map (fun x => DbValue.F64 x)).getD DbValue.Null
  | "FLOAT8" => ((pgTryGetF64 v).map (fun x => DbValue.F64 x)).getD DbValue.Null
  | "BOOL" => ((pgTryGetBool v).map (fun x => DbValue.Boolean x)).getD DbValue.Null
  | "TEXT" | "VARCHAR" | "CHAR" =>
    ((pgTryGetString v).map (fun x => DbValue.Str x)).getD DbValue.Null
  | "UUID" => ((pgTryGetUuid v).map (fun x => DbValue.Uuid x)).getD DbValue.Null
  | "NUMERIC" => ((pgTryGetDecimal v).map (fun x => DbValue.Decimal x)).getD DbValue.Null
  | "JSON" | "JSONB" =>
    ((pgTryGetJson v).map (fun x => DbValue.JsonVal x)).getD DbValue.Null
  | "BYTEA" => ((pgTryGetBytes v).map (fun x => DbValue.Bytes x)).getD DbValue.Null
  | "DATE" => ((pgTryGetDate v).map (fun x => DbValue.Date x)).getD DbValue.Null
  | "TIMESTAMP" => ((pgTryGetDateTime v).map (fun x => DbValue.DateTime x)).getD DbValue.Null
  | "TIMESTAMPTZ" =>
    ((pgTryGetTimestampTz v).map (fun x => DbValue.Timestamp x)).getD DbValue.Null
  | _ => DbValue.Unsupported

/- The type names postgres.rs recognizes, in source order. -/
def pgKnownTypes : List String :=
  ["INT2", "INT4", "INT8", "FLOAT4", "FLOAT8", "BOOL", "TEXT", "VARCHAR", "CHAR",
   "UUID", "NUMERIC", "JSON", "JSONB", "BYTEA", "DATE", "TIMESTAMP", "TIMESTAMPTZ"]

/- The typed decode attempt postgres.rs makes for a recognized type name
   (none for an unrecognized one): the map arm of each match branch,
   before the unwrap_or(Null). -/
def pgAttempt (typ : String) (v : PgNative) : Option DbValue :=
  match typ with
  | "INT2" => (pgTryGetI16 v).map (fun x => DbValue.I64 x)
  | "INT4" => (pgTryGetI32 v).map (fun x => DbValue.I64 x)
  | "INT8" => (pgTryGetI64 v).map (fun x => DbValue.I64 x)
  | "FLOAT4" => (pgTryGetF32 v).map (fun x => DbValue.F64 x)
  | "FLOAT8" => (pgTryGetF64 v).map (fun x => DbValue.F64 x)
  | "BOOL" => (pgTryGetBool v).map (fun x => DbValue.Boolean x)
  | "TEXT" | "VARCHAR" | "CHAR" => (pgTryGetString v).map (fun x => DbValue.Str x)
  | "UUID" => (pgTryGetUuid v).map (fun x => DbValue.Uuid x)
  | "NUMERIC" => (pgTryGetDecimal v).map (fun x => DbValue.Decimal x)
  | "JSON" | "JSONB" => (pgTryGetJson v).map (fun x => DbValue.JsonVal x)
  | "BYTEA" => (pgTryGetBytes v).map (fun x => DbValue.Bytes x)
  | "DATE" => (pgTryGetDate v).map (fun x => DbValue.Date x)
  | "TIMESTAMP" => (pgTryGetDateTime v).map (fun x => DbValue.DateTime x)
  | "TIMESTAMPTZ" => (pgTryGetTimestampTz v).map (fun x => DbValue.Timestamp x)
  | _ => none

/- postgres.rs `From<PgRow> for AnyRow`: every column of the row is
   normalized independently; the conversion is a total function. -/
def pgRowDecode (cols : List (String × PgNative)) : List DbValue :=
  cols.map (fun c => pgDecodeValue c.1 c.2)

/- The wire value of one MySQL column as sqlx exposes it to try_get. -/
inductive MySqlNative where
  | int (v : Int)
  | float (v : String)
  | decimal (d : String)
  | boolean (b : Bool)
  | text (s : String)
  | blob (bs : List Nat)
  | date (d : String)
  | datetime (d : String)
  | timestamp (t : String)
  | jsonVal (j : Json)
  | null
deriving DecidableEq

def myTryGetI64 : MySqlNative → Option Int
  | MySqlNative.int v => some v
  | _ => none

def myTryGetF64 : MySqlNative → Option String
  | MySqlNative.float v => some v
  | _ => none

def myTryGetDecimal : MySqlNative → Option String
  | MySqlNative.decimal d => some d
  | _ => none

def myTryGetBool : MySqlNative → Option Bool
  | MySqlNative.boolean b => some b
  | _ => none

def myTryGetString : MySqlNative → Option String
  | MySqlNative.text s => some s
  | _ => none

def myTryGetBytes : MySqlNative → Option (List Nat)
  | MySqlNative.blob bs => some bs
  | _ => none

def myTryGetDate : MySqlNative → Option String
  | MySqlNative.date d => some d
  | _ => none

def myTryGetDateTime : MySqlNative → Option String
  | MySqlNative.datetime d => some d
  | _ => none

def myTryGetTimestamp : MySqlNative → Option String
  | MySqlNative.timestamp t => some t
  | _ => none

def myTryGetJson : MySqlNative → Option Json
  | MySqlNative.jsonVal j => some j
  | _ => none

/- mysql.rs `From<MySqlRow> for AnyRow`, one column. -/
def myDecodeValue (typ : String) (v : MySqlNative) : DbValue :=
  match typ with
  | "TINYINT" | "SMALLINT" | "MEDIUMINT" | "INT" | "BIGINT" =>
    ((myTryGetI64 v).map (fun x => DbValue.I64 x)).getD DbValue.Null
  | "FLOAT" | "DOUBLE" =>
    ((myTryGetF64 v).map (fun x => DbValue.F64 x)).getD DbValue.Null
  | "DECIMAL" =>
    ((myTryGetDecimal v).map (fun x => DbValue.Decimal x)).getD DbValue.Null
  | "BOOLEAN" | "BIT" =>
    ((myTryGetBool v).map (fun x => DbValue.Boolean x)).getD DbValue.Null
  | "CHAR" | "VARCHAR" | "TEXT" | "TINYTEXT" | "MEDIUMTEXT" | "LONGTEXT" =>
    ((myTryGetString v).map (fun x => DbValue.Str x)).getD DbValue.Null
  | "BLOB" | "TINYBLOB" | "MEDIUMBLOB" | "LONGBLOB" | "BINARY" | "VARBINARY" =>
    ((myTryGetBytes v).map (fun x => DbValue.Bytes x)).getD DbValue.Null
  | "DATE" => ((myTryGetDate v).map (fun x => DbValue.Date x)).getD DbValue.Null
  | "DATETIME" =>
    ((myTryGetDateTime v).map (fun x => DbValue.DateTime x)).getD DbValue.Null
  | "TIMESTAMP" =>
    ((myTryGetTimestamp v).map (fun x => DbValue.Timestamp x)).getD DbValue.Null
  | "JSON" => ((myTryGetJson v).map (fun x => DbValue.JsonVal x)).getD DbValue.Null
  | _ => DbValue.Unsupported

/- The type names mysql.rs recognizes, in source order. -/
def myKnownTypes : List String :=
  ["TINYINT", "SMALLINT", "MEDIUMINT", "INT", "BIGINT", "FLOAT", "DOUBLE",
   "DECIMAL", "BOOLEAN", "BIT", "CHAR", "VARCHAR", "TEXT", "TINYTEXT",
   "MEDIUMTEXT", "LONGTEXT", "BLOB", "TINYBLOB", "MEDIUMBLOB", "LONGBLOB",
   "BINARY", "VARBINARY", "DATE", "DATETIME", "TIMESTAMP", "JSON"]

/- The typed decode attempt mysql.rs makes for a recognized type name. -/
def myAttempt (typ : String) (v : MySqlNative) : Option DbValue :=
  match typ with
  | "TINYINT" | "SMALLINT" | "MEDIUMINT" | "INT" | "BIGINT" =>
    (myTryGetI64 v).map (fun x => DbValue.I64 x)
  | "FLOAT" | "DOUBLE" => (myTryGetF64 v).map (fun x => DbValue.F64 x)
  | "DECIMAL" => (myTryGetDecimal v).map (fun x => DbValue.Decimal x)
  | "BOOLEAN" | "BIT" => (myTryGetBool v).map (fun x => DbValue.Boolean x)
  | "CHAR" | "VARCHAR" | "TEXT" | "TINYTEXT" | "MEDIUMTEXT" | "LONGTEXT" =>
    (myTryGetString v).map (fun x => DbValue.Str x)
  | "BLOB" | "TINYBLOB" | "MEDIUMBLOB" | "LONGBLOB" | "BINARY" | "VARBINARY" =>
    (myTryGetBytes v).map (fun x => DbValue.Bytes x)
  | "DATE" => (myTryGetDate v).map (fun x => DbValue.Date x)
  | "DATETIME" => (myTryGetDateTime v).map (fun x => DbValue.DateTime x)
  | "TIMESTAMP" => (myTryGetTimestamp v).map (fun x => DbValue.Timestamp x)
  | "JSON" => (myTryGetJson v).map (fun x => DbValue.JsonVal x)
  | _ => none

/- mysql.rs `From<MySqlRow> for AnyRow`: columns normalized independently. -/
def myRowDecode (cols : List (String × MySqlNative)) : List DbValue :=
  cols.map (fun c => myDecodeValue c.1 c.2)

end AnyDb

/- ------------------------------------------------------------------ -/
/- Helper lemmas shared by the claim theorems.                         -/
/- ------------------------------------------------------------------ -/

theorem zip_all_eq_iff : ∀ (xs ys : List String), xs.length = ys.length →
    (((xs.zip ys).all fun p => p.1 = p.2) = true ↔ xs = ys)
  | [], [], _ => by simp
  | [], _ :: _, h => by simp at h
  | _ :: _, [], h => by simp at h
  | x :: xs, y :: ys, h => by
    have ih := zip_all_eq_iff xs ys (by simpa using h)
    simp only [List.zip_cons_cons, List.all_cons, Bool.and_eq_true, decide_eq_true_eq,
      List.cons.injEq]
    exact and_congr Iff.rfl ih

theorem assert_sql_multiple_eq (items rows : List String) :
    assert_sql (StringOrStrings.Multiple items) (some rows) =
      if rows = items then TestResult.Pass else TestResult.Fail := by
  by_cases hlen : rows.length = items.length
  · by_cases heq : items = rows
    · subst heq
      simp [assert_sql, zip_all_eq_iff items items rfl]
    · have hne : rows ≠ items := fun hr => heq hr.symm
      simp only [assert_sql, hlen, if_true, if_neg hne]
      rcases h : ((items.zip rows).all fun p => p.1 = p.2) with _ | _
      · simp
      · exact absurd ((zip_all_eq_iff items rows hlen.symm).mp h) heq
  · have hne : rows ≠ items := fun hr => hlen (hr ▸ rfl)
    simp [assert_sql, hlen, hne]

theorem assert_sql_single_eq (e : String) (rows : List String) :
    assert_sql (StringOrStrings.Single e) (some rows) =
      if rows = [e] ∨ (e = "" ∧ rows = []) then TestResult.Pass else TestResult.Fail := by
  match rows with
  | [] =>
    by_cases he : e = ""
    · subst he
      have h1 : ("" : String).isEmpty = true := rfl
      simp [assert_sql, h1]
    · have h1 : e.isEmpty = false := by
        rcases h : e.isEmpty with _ | _
        · rfl
        · exact absurd ((String.isEmpty_iff e).mp h) he
      simp [assert_sql, h1, he]
  | [g] =>
    have h1 : (e.isEmpty && List.isEmpty [g]) = false := by simp
    by_cases hg : g = e
    · subst hg; simp [assert_sql, h1]
    · have h2 : ¬(([g] : List String) = [e] ∨ (e = "" ∧ ([g] : List String) = [])) := by
        simp [hg]
      simp [assert_sql, h1, hg, h2]
  | a :: b :: t =>
    have h1 : (e.isEmpty && List.isEmpty (a :: b :: t)) = false := by simp
    have h2 : ¬((a :: b :: t : List String) = [e] ∨ (e = "" ∧ (a :: b :: t : List String) = [])) := by
      simp
    simp [assert_sql, h1, h2]

theorem assert_header_pass_iff : ∀ (expected actual : HeaderMap),
    assert_header expected actual = TestResult.Pass ↔
      ∀ kv ∈ expected,
        HeaderMap.get actual kv.1 = none ∨ HeaderMap.get actual kv.1 = some kv.2
  | [], _ => by simp [assert_header]
  | (k, v) :: rest, actual => by
    have ih := assert_header_pass_iff rest actual
    cases hget : HeaderMap.get actual k with
    | none =>
      have hstep : assert_header ((k, v) :: rest) actual = assert_header rest actual := by
        simp [assert_header, hget]
      rw [hstep, ih]
      constructor
      · intro h kv hkv
        rcases List.mem_cons.mp hkv with rfl | hkv'
        · exact Or.inl hget
        · exact h kv hkv'
      · intro h kv hkv; exact h kv (List.mem_cons_of_mem _ hkv)
    | some vb =>
      by_cases hv : v = vb
      · subst hv
        have hstep : assert_header ((k, v) :: rest) actual = assert_header rest actual := by
          simp [assert_header, hget]
        rw [hstep, ih]
        constructor
        · intro h kv hkv
          rcases List.mem_cons.mp hkv with rfl | hkv'
          · exact Or.inr hget
          · exact h kv hkv'
        · intro h kv hkv; exact h kv (List.mem_cons_of_mem _ hkv)
      · have hstep : assert_header ((k, v) :: rest) actual = TestResult.Fail := by
          simp [assert_header, hget, hv]
        rw [hstep]
        constructor
        · intro h; cases h
        · intro h
          rcases h (k, v) (List.mem_cons_self _ _) with h' | h'
          · rw [hget] at h'; cases h'
          · rw [hget] at h'
            exact absurd (Option.some.inj h').symm hv

/- ------------------------------------------------------------------ -/
/- Claim theorems.                                                     -/
/- ------------------------------------------------------------------ -/

/-- C1: a Sql assertion with a single-string expectation passes exactly on
a one-row result equal to it, with the declared-empty-string /
zero-rows special case; a list expectation passes exactly when the row
count matches and every position matches in order, so reversing a
non-palindromic actual row list flips Pass to Fail. -/
theorem C1_assert_sql_spec :
    (∀ (e : String) (rows : List String),
      assert_sql (StringOrStrings.Single e) (some rows) = TestResult.Pass ↔
        (rows = [e] ∨ (e = "" ∧ rows = [])))
  ∧ (∀ (items rows : List String),
      assert_sql (StringOrStrings.Multiple items) (some rows) = TestResult.Pass ↔
        (rows.length = items.length ∧
          ∀ (i : Nat) (h1 : i < rows.length) (h2 : i < items.length),
            rows.get ⟨i, h1⟩ = items.get ⟨i, h2⟩))
  ∧ (∀ (items rows : List String),
      assert_sql (StringOrStrings.Multiple items) (some rows) = TestResult.Pass →
      rows.reverse ≠ rows →
      assert_sql (StringOrStrings.Multiple items) (some rows.reverse) = TestResult.Fail) := by
  refine ⟨?single, ?multiple, ?reversed⟩
  case single =>
    intro e rows
    rw [assert_sql_single_eq]
    by_cases h : rows = [e] ∨ (e = "" ∧ rows = [])
    · simp [h]
    · simp [h]
  case multiple =>
    intro items rows
    rw [assert_sql_multiple_eq]
    constructor
    · intro h
      have : rows = items := by
        by_cases heq : rows = items
        · exact heq
        · rw [if_neg heq] at h; cases h
      exact List.ext_get_iff.mp this
    · intro h
      rw [if_pos (List.ext_get_iff.mpr h)]
  case reversed =>
    intro items rows hpass hrev
    have heq : rows = items := by
      by_cases heq : rows = items
      · exact heq
      · rw [assert_sql_multiple_eq, if_neg heq] at hpass; cases hpass
    rw [assert_sql_multiple_eq, if_neg (heq ▸ hrev)]

/-- C1 witness: the empty-single-string special case passes on zero rows,
and reversing a two-element actual list flips the list comparison to
Fail. -/
theorem C1_witness :
    assert_sql (StringOrStrings.Single "") (some []) = TestResult.Pass ∧
    assert_sql (StringOrStrings.Multiple ["a", "b"]) (some ["b", "a"]) = TestResult.Fail := by
  constructor
  · exact (C1_assert_sql_spec.1 "" []).mpr (Or.inr ⟨rfl, rfl⟩)
  · exact C1_assert_sql_spec.2.2 ["a", "b"] ["a", "b"] (by decide) (by decide)

/-- C2: a Headers assertion passes exactly when every declared header that
is also present in the actual response has a byte-for-byte equal value;
declared headers absent from the actual response are skipped, and an
actual response missing all declared headers passes. -/
theorem C2_assert_header_spec :
    (∀ (expected actual : HeaderMap),
      assert_header expected actual = TestResult.Pass ↔
        ∀ kv ∈ expected,
          HeaderMap.get actual kv.1 = none ∨ HeaderMap.get actual kv.1 = some kv.2)
  ∧ (∀ (expected actual : HeaderMap),
      (∀ kv ∈ expected, HeaderMap.get actual kv.1 = none) →
      assert_header expected actual = TestResult.Pass) := by
  refine ⟨assert_header_pass_iff, ?_⟩
  intro expected actual h
  exact (assert_header_pass_iff expected actual).mpr fun kv hkv => Or.inl (h kv hkv)

/-- C2 witness: asserting a header against a response that lacks it
passes. -/
theorem C2_witness :
    assert_header [("X-Trace", "abc")] [("content-type", "text/html")] = TestResult.Pass := by
  exact C2_assert_header_spec.2 [("X-Trace", "abc")] [("content-type", "text/html")]
    (by decide)

/-- C3: a RunnerResult that carries a transport error produces exactly one
synthetic failing AssertResult holding the error message as the actual
value, whatever assertions were declared. -/
theorem C3_transport_failure_override :
    ∀ (r : RunnerResult) (msg : String), r.error = some msg →
      RunnerResult.assert r =
        some [{ status := TestResult.Fail, expected := Assertion.RequestFailed,
                actual := Actual.RequestFailed msg }] := by
  intro r msg h
  unfold RunnerResult.assert
  rw [h]

/-- C3 witness: a connection-refused outcome with three declared
assertions yields the single synthetic failure. -/
theorem C3_witness :
    RunnerResult.assert
      { name := "t", method := "GET", url := "http://x/y",
        response := none, error := some "connection refused",
        assertions := [Assertion.Status 200, Assertion.Headers [],
                       Assertion.Json Json.null] } =
      some [{ status := TestResult.Fail, expected := Assertion.RequestFailed,
              actual := Actual.RequestFailed "connection refused" }] :=
  C3_transport_failure_override
    { name := "t", method := "GET", url := "http://x/y",
      response := none, error := some "connection refused",
      assertions := [Assertion.Status 200, Assertion.Headers [],
                     Assertion.Json Json.null] }
    "connection refused" rfl

/-- C4 counterexample: with a non-default declared value and a body that
failed to parse as JSON, the source passes, whereas the claim predicts a
mismatch against the empty/default JSON value (null). -/
theorem C4_counterexample :
    assert_json (Json.str "x") none = TestResult.Pass ∧ Json.str "x" ≠ Json.null := by
  exact ⟨rfl, by decide⟩

/-- C4 amended: a parsed body passes exactly when it is structurally
deep-equal to the declared value; a body that failed to parse as JSON
passes unconditionally (the declared value is not compared against a
default). -/
theorem C4_assert_json_amended :
    ∀ (expected : Json) (got : Option Json),
      assert_json expected got = TestResult.Pass ↔ (got = none ∨ got = some expected) := by
  intro expected got
  cases got with
  | none => simp [assert_json]
  | some g =>
    by_cases h : g = expected
    · subst h; simp [assert_json]
    · simp [assert_json, h]

/-- C5 counterexample: the declared i32 code 65636 is not a valid HTTP
status value and differs from the actual status 100, yet the assertion
passes, because the source truncates the code with `as u16` (65636 mod
65536 = 100) before validating it. -/
theorem C5_counterexample :
    assert_status 65636 100 = TestResult.Pass ∧ (65636 : Int) ≠ 100 ∧
      ¬(100 ≤ (65636 : Int) ∧ (65636 : Int) ≤ 999) := by
  refine ⟨by decide, by decide, by decide⟩

/-- C5 amended: a Status assertion passes exactly when the declared code
truncated to its low 16 bits (Rust `as u16`) is a valid status value
(100..=999) and equals the actual numeric status; when the truncated
code is not a valid status value the verdict is Fail whatever the actual
status is. -/
theorem C5_assert_status_amended :
    (∀ (c : Int) (s : Nat),
      assert_status c s = TestResult.Pass ↔
        (100 ≤ i32AsU16 c ∧ i32AsU16 c ≤ 999 ∧ i32AsU16 c = s))
  ∧ (∀ (c : Int), ¬(100 ≤ i32AsU16 c ∧ i32AsU16 c ≤ 999) →
      ∀ (s : Nat), assert_status c s = TestResult.Fail) := by
  constructor
  · intro c s
    unfold assert_status statusCodeFromU16
    by_cases hv : 100 ≤ i32AsU16 c ∧ i32AsU16 c ≤ 999
    · rw [if_pos hv]
      by_cases he : i32AsU16 c = s
      · simp [he, hv.1 , hv.2]
        exact ⟨he ▸ hv.1, he ▸ hv.2⟩
      · simp [he]
    · rw [if_neg hv]
      simp
      intro h1 h2 _; exact hv ⟨h1, h2⟩
  · intro c hv s
    unfold assert_status statusCodeFromU16
    rw [if_neg hv]

/-- C5 witness: a truncated code outside 100..=999 fails against any
actual status, here declared code 50 against actual 200. -/
theorem C5_witness : assert_status 50 200 = TestResult.Fail :=
  C5_assert_status_amended.2 50 (by decide) 200

theorem pgDecode_eq (typ : String) (v : AnyDb.PgNative) :
    AnyDb.pgDecodeValue typ v =
      if typ ∈ AnyDb.pgKnownTypes then (AnyDb.pgAttempt typ v).getD AnyDb.DbValue.Null
      else AnyDb.DbValue.Unsupported := by
  unfold AnyDb.pgDecodeValue AnyDb.pgAttempt AnyDb.pgKnownTypes
  split <;> simp_all

theorem myDecode_eq (typ : String) (v : AnyDb.MySqlNative) :
    AnyDb.myDecodeValue typ v =
      if typ ∈ AnyDb.myKnownTypes then (AnyDb.myAttempt typ v).getD AnyDb.DbValue.Null
      else AnyDb.DbValue.Unsupported := by
  unfold AnyDb.myDecodeValue AnyDb.myAttempt AnyDb.myKnownTypes
  split <;> simp_all

/-- C8: per-column normalization is a total function (every column of a
row yields a canonical value), a type name outside the engine's decode
table maps to Unsupported, and a recognized type name whose typed decode
attempt fails maps to Null — on both the Postgres and the MySQL path. -/
theorem C8_decode_fallback :
    (∀ (cols : List (String × AnyDb.PgNative)),
        (AnyDb.pgRowDecode cols).length = cols.length)
  ∧ (∀ (cols : List (String × AnyDb.MySqlNative)),
        (AnyDb.myRowDecode cols).length = cols.length)
  ∧ (∀ (typ : String) (v : AnyDb.PgNative), typ ∉ AnyDb.pgKnownTypes →
        AnyDb.pgDecodeValue typ v = AnyDb.DbValue.Unsupported)
  ∧ (∀ (typ : String) (v : AnyDb.PgNative), typ ∈ AnyDb.pgKnownTypes →
        AnyDb.pgAttempt typ v = none →
        AnyDb.pgDecodeValue typ v = AnyDb.DbValue.Null)
  ∧ (∀ (typ : String) (v : AnyDb.MySqlNative), typ ∉ AnyDb.myKnownTypes →
        AnyDb.myDecodeValue typ v = AnyDb.DbValue.Unsupported)
  ∧ (∀ (typ : String) (v : AnyDb.MySqlNative), typ ∈ AnyDb.myKnownTypes →
        AnyDb.myAttempt typ v = none →
        AnyDb.myDecodeValue typ v = AnyDb.DbValue.Null) := by
  refine ⟨?_, ?_, ?_, ?_, ?_, ?_⟩
  · intro cols; simp [AnyDb.pgRowDecode]
  · intro cols; simp [AnyDb.myRowDecode]
  · intro typ v h; rw [pgDecode_eq, if_neg h]
  · intro typ v h ha; rw [pgDecode_eq, if_pos h, ha]; rfl
  · intro typ v h; rw [myDecode_eq, if_neg h]
  · intro typ v h ha; rw [myDecode_eq, if_pos h, ha]; rfl

/-- C8 witness: an unrecognized type name decodes to Unsupported and a
recognized type name with a failing typed decode (wrong wire type, or
SQL NULL) decodes to Null, on both engines. -/
theorem C8_witness :
    AnyDb.pgDecodeValue "GEOMETRY" (AnyDb.PgNative.text "p") = AnyDb.DbValue.Unsupported ∧
    AnyDb.pgDecodeValue "INT2" (AnyDb.PgNative.text "p") = AnyDb.DbValue.Null ∧
    AnyDb.myDecodeValue "GEOMETRY" (AnyDb.MySqlNative.text "p") = AnyDb.DbValue.Unsupported ∧
    AnyDb.myDecodeValue "INT" AnyDb.MySqlNative.null = AnyDb.DbValue.Null := by
  refine ⟨C8_decode_fallback.2.2.1 "GEOMETRY" _ (by decide),
          C8_decode_fallback.2.2.2.1 "INT2" _ (by decide) rfl,
          C8_decode_fallback.2.2.2.2.1 "GEOMETRY" _ (by decide),
          C8_decode_fallback.2.2.2.2.2 "INT" _ (by decide) rfl⟩

theorem reset_table_ok (exec : String → Except String Unit) (t : String)
    (h : exec (Runner.truncateSql t) = Except.ok () ∨
         exec (Runner.deleteSql t) = Except.ok ()) :
    ∃ ev, Runner.reset_table exec t = Except.ok ev := by
  unfold Runner.reset_table
  cases htr : exec (Runner.truncateSql t) with
  | ok u => exact ⟨_, rfl⟩
  | error e =>
    rcases h with h | h
    · rw [htr] at h; cases h
    · rw [h]; exact ⟨_, rfl⟩

theorem reset_tables_ok (exec : String → Except String Unit) : ∀ (tables : List String),
    (∀ t ∈ tables, exec (Runner.truncateSql t) = Except.ok () ∨
        exec (Runner.deleteSql t) = Except.ok ()) →
    ∃ evs, Runner.reset_tables exec tables = Except.ok evs
  | [], _ => ⟨[], rfl⟩
  | t :: rest, h => by
    rcases reset_tables_ok exec rest (fun x hx => h x (List.mem_cons_of_mem _ hx)) with
      ⟨evs, hevs⟩
    rcases reset_table_ok exec t (h t (List.mem_cons_self _ _)) with ⟨ev, hev⟩
    refine ⟨ev ++ evs, ?_⟩
    unfold Runner.reset_tables
    rw [hev, hevs]
    rfl

/-- C9: during a schema reset each enumerated table is TRUNCATEd first
with DELETE attempted only when TRUNCATE fails; the sequence-counter
reset is best-effort (its failure never makes reset_database return an
error); and table enumeration runs the SQLite catalog query first, with
the information-schema query used only as fallback on error or an empty
result. -/
theorem C9_reset_database_spec :
    (∀ (exec : String → Except String Unit) (t : String),
        exec (Runner.truncateSql t) = Except.ok () →
        Runner.reset_table exec t =
          Except.ok [Runner.ResetEvent.exec (Runner.truncateSql t),
                     Runner.ResetEvent.exec (Runner.resetSeqSqlPg t)])
  ∧ (∀ (exec : String → Except String Unit) (t e : String),
        exec (Runner.truncateSql t) = Except.error e →
        exec (Runner.deleteSql t) = Except.ok () →
        Runner.reset_table exec t =
          Except.ok [Runner.ResetEvent.exec (Runner.truncateSql t),
                     Runner.ResetEvent.exec (Runner.deleteSql t),
                     Runner.ResetEvent.exec (Runner.resetSeqSqlPg t)])
  ∧ (∀ (exec : String → Except String Unit)
        (fetchRows : String → Except String (List String))
        (tables : List String) (ev0 : List Runner.ResetEvent),
        Runner.enumerate_tables fetchRows = (Except.ok tables, ev0) →
        (∀ t ∈ tables, exec (Runner.truncateSql t) = Except.ok () ∨
            exec (Runner.deleteSql t) = Except.ok ()) →
        ∃ evs, Runner.reset_database exec fetchRows = Except.ok evs)
  ∧ (∀ (fetchRows : String → Except String (List String)) (ts : List String),
        fetchRows Runner.sqliteMasterQuery = Except.ok ts → ts ≠ [] →
        Runner.enumerate_tables fetchRows =
          (Except.ok ts, [Runner.ResetEvent.query Runner.sqliteMasterQuery]))
  ∧ (∀ (fetchRows : String → Except String (List String)),
        (fetchRows Runner.sqliteMasterQuery = Except.ok [] ∨
          ∃ e, fetchRows Runner.sqliteMasterQuery = Except.error e) →
        Runner.enumerate_tables fetchRows =
          (fetchRows Runner.infoSchemaQuery,
           [Runner.ResetEvent.query Runner.sqliteMasterQuery,
            Runner.ResetEvent.query Runner.infoSchemaQuery])) := by
  refine ⟨?_, ?_, ?_, ?_, ?_⟩
  · intro exec t h
    unfold Runner.reset_table
    rw [h]
  · intro exec t e h1 h2
    unfold Runner.reset_table
    rw [h1, h2]
  · intro exec fetchRows tables ev0 henum h
    rcases reset_tables_ok exec tables h with ⟨evs, hevs⟩
    refine ⟨ev0 ++ evs, ?_⟩
    unfold Runner.reset_database
    rw [henum]
    dsimp only
    rw [hevs]
    rfl
  · intro fetchRows ts h hne
    unfold Runner.enumerate_tables
    rw [h]
    cases ts with
    | nil => exact absurd rfl hne
    | cons a l => rfl
  · intro fetchRows h
    unfold Runner.enumerate_tables
    rcases h with h | ⟨e, h⟩
    · rw [h]; rfl
    · rw [h]

/-- C9 witness: with an oracle whose sequence-reset statement fails but
whose TRUNCATE succeeds, the per-table reset still succeeds; and a
non-empty SQLite catalog answer stops enumeration at the first query. -/
theorem C9_witness :
    Runner.reset_table
        (fun q => if q = Runner.resetSeqSqlPg "t" then Except.error "seq reset failed"
                  else Except.ok ()) "t" =
      Except.ok [Runner.ResetEvent.exec (Runner.truncateSql "t"),
                 Runner.ResetEvent.exec (Runner.resetSeqSqlPg "t")] ∧
    Runner.enumerate_tables
        (fun q => if q = Runner.sqliteMasterQuery then Except.ok ["t"]
                  else Except.error "unreachable") =
      (Except.ok ["t"], [Runner.ResetEvent.query Runner.sqliteMasterQuery]) := by
  constructor
  · refine C9_reset_database_spec.1 _ "t" ?_
    have hne : ¬(Runner.truncateSql "t" = Runner.resetSeqSqlPg "t") := by decide
    simp [hne]
  · refine C9_reset_database_spec.2.2.2.1 _ ["t"] ?_ (by decide)
    simp

theorem run_sql_ok_shape (exec : String → Except String Unit) :
    ∀ (stmts : List String) (evs : List Runner.Event),
      Runner.run_sql exec stmts = Except.ok evs →
      evs = stmts.map Runner.Event.hookSql
  | [], evs, h => by
    simp only [Runner.run_sql, Except.ok.injEq] at h
    simp [← h]
  | s :: rest, evs, h => by
    unfold Runner.run_sql at h
    cases hx : exec s with
    | error e => rw [hx] at h; cases h
    | ok u =>
      rw [hx] at h
      cases hr : Runner.run_sql exec rest with
      | error e => rw [hr] at h; cases h
      | ok evs' =>
        rw [hr] at h
        simp only [Except.map, Except.ok.injEq] at h
        have ih := run_sql_ok_shape exec rest evs' hr
        subst ih
        simp [← h]

theorem run_sql_assertions_fst (fetch : String → Except String (List Runner.FirstCol)) :
    ∀ (l : List Runner.Assertion),
      (Runner.run_sql_assertions fetch l).1 =
        (sqlQueries l).map Runner.Event.assertQuery
  | [] => rfl
  | a :: rest => by
    have ih := run_sql_assertions_fst fetch rest
    cases a <;> simp [Runner.run_sql_assertions, sqlQueries, ih]

theorem run_sql_assertions_snd_append (fetch : String → Except String (List Runner.FirstCol)) :
    ∀ (xs ys : List Runner.Assertion),
      (Runner.run_sql_assertions fetch (xs ++ ys)).2 =
        (Runner.run_sql_assertions fetch xs).2 ++ (Runner.run_sql_assertions fetch ys).2
  | [], ys => rfl
  | a :: xs, ys => by
    have ih := run_sql_assertions_snd_append fetch xs ys
    cases a <;> simp [Runner.run_sql_assertions, ih]

theorem got_string_ok (fetch : String → Except String (List Runner.FirstCol))
    (q : String) (rows : List Runner.FirstCol) (h : fetch q = Except.ok rows) :
    Runner.got_string fetch q =
      String.intercalate ", " (rows.map Runner.stringifyFirstCol) := by
  unfold Runner.got_string
  rw [h]

theorem got_string_error (fetch : String → Except String (List Runner.FirstCol))
    (q e : String) (h : fetch q = Except.error e) :
    Runner.got_string fetch q = "SQL error: " ++ e := by
  unfold Runner.got_string
  rw [h]

theorem run_case_shape (w : Runner.World) (t : Runner.ValidatedTests)
    (ev : List Runner.Event) (rr : Runner.RunnerResult)
    (h : Runner.run_case w t = Except.ok (ev, rr)) :
    ∃ ev0,
      ev = ev0 ++ Runner.Event.httpSend t.name ::
             (sqlQueries t.assertions).map Runner.Event.assertQuery ++
             [Runner.Event.send t.name] ∧
      rr.assertions = (Runner.run_sql_assertions w.fetchAssert t.assertions).2 ∧
      (∀ x ∈ ev0, ∃ s, x = Runner.Event.hookSql s) ∧
      (t.before_run = none → ev0 = []) := by
  cases hbr : t.before_run with
  | none =>
    unfold Runner.run_case at h
    rw [hbr] at h
    dsimp only at h
    rw [Except.ok.injEq, Prod.mk.injEq] at h
    obtain ⟨hev, hrr⟩ := h
    refine ⟨[], ?_, ?_, by simp, fun _ => rfl⟩
    · rw [← hev, run_sql_assertions_fst]
    · rw [← hrr]
      cases w.http t.name <;> rfl
  | some stmts =>
    unfold Runner.run_case at h
    rw [hbr] at h
    dsimp only at h
    cases hs : Runner.run_sql w.exec stmts with
    | error e => rw [hs] at h; cases h
    | ok ev0 =>
      rw [hs] at h
      dsimp only at h
      rw [Except.ok.injEq, Prod.mk.injEq] at h
      obtain ⟨hev, hrr⟩ := h
      refine ⟨ev0, ?_, ?_, ?_, by intro hx; exact Option.noConfusion hx⟩
      · rw [← hev, run_sql_assertions_fst]
      · rw [← hrr]
        cases w.http t.name <;> rfl
      · intro x hx
        have := run_sql_ok_shape w.exec stmts ev0 hs
        subst this
        rcases List.mem_map.mp hx with ⟨s, _, hmap⟩
        exact ⟨s, hmap.symm⟩

theorem run_case_event_mem (w : Runner.World) (t : Runner.ValidatedTests)
    (ev : List Runner.Event) (rr : Runner.RunnerResult)
    (h : Runner.run_case w t = Except.ok (ev, rr)) :
    ∀ x ∈ ev,
      (∃ s, x = Runner.Event.hookSql s ∧ t.before_run ≠ none) ∨
      x = Runner.Event.httpSend t.name ∨
      (∃ q, x = Runner.Event.assertQuery q) ∨
      x = Runner.Event.send t.name := by
  rcases run_case_shape w t ev rr h with ⟨ev0, hev, _, hkinds, hnone⟩
  subst hev
  intro x hx
  rcases List.mem_append.mp hx with hxl | hxsend
  · rcases List.mem_append.mp hxl with hx0 | hxmid
    · rcases hkinds x hx0 with ⟨s, hs⟩
      refine Or.inl ⟨s, hs, ?_⟩
      intro hb
      rw [hnone hb] at hx0
      cases hx0
    · rcases List.mem_cons.mp hxmid with rfl | hxmap
      · exact Or.inr (Or.inl rfl)
      · rcases List.mem_map.mp hxmap with ⟨q, _, hq⟩
        exact Or.inr (Or.inr (Or.inl ⟨q, hq.symm⟩))
  · have hxeq : x = Runner.Event.send t.name := List.mem_singleton.mp hxsend
    subst hxeq
    exact Or.inr (Or.inr (Or.inr rfl))

theorem run_cases_event_mem (w : Runner.World) :
    ∀ (ts : List Runner.ValidatedTests) (ev : List Runner.Event)
      (rrs : List Runner.RunnerResult),
      Runner.run_cases w ts = Except.ok (ev, rrs) →
      ∀ x ∈ ev,
        (∃ s t, x = Runner.Event.hookSql s ∧ t ∈ ts ∧ t.before_run ≠ none) ∨
        (∃ n, x = Runner.Event.httpSend n) ∨
        (∃ q, x = Runner.Event.assertQuery q) ∨
        (∃ n, x = Runner.Event.send n)
  | [], ev, rrs, h => by
    simp only [Runner.run_cases, Except.ok.injEq, Prod.mk.injEq] at h
    rw [← h.1]
    intro x hx
    cases hx
  | t :: rest, ev, rrs, h => by
    unfold Runner.run_cases at h
    cases hc : Runner.run_case w t with
    | error e => rw [hc] at h; cases h
    | ok p =>
      rw [hc] at h
      cases hr : Runner.run_cases w rest with
      | error e => rw [hr] at h; cases h
      | ok pr =>
        rw [hr] at h
        dsimp only at h
        rw [Except.ok.injEq, Prod.mk.injEq] at h
        obtain ⟨hev, _⟩ := h
        intro x hx
        rw [← hev] at hx
        rcases List.mem_append.mp hx with hx1 | hx2
        · rcases run_case_event_mem w t p.1 p.2 (by rw [hc]) x hx1 with
            ⟨s, hs, hb⟩ | hh | hq | hsend
          · exact Or.inl ⟨s, t, hs, List.mem_cons_self _ _, hb⟩
          · exact Or.inr (Or.inl ⟨t.name, hh⟩)
          · exact Or.inr (Or.inr (Or.inl hq))
          · exact Or.inr (Or.inr (Or.inr ⟨t.name, hsend⟩))
        · rcases run_cases_event_mem w rest pr.1 pr.2 (by rw [hr]) x hx2 with
            ⟨s, t', hs, ht', hb⟩ | hh | hq | hsend
          · exact Or.inl ⟨s, t', hs, List.mem_cons_of_mem _ ht', hb⟩
          · exact Or.inr (Or.inl hh)
          · exact Or.inr (Or.inr (Or.inl hq))
          · exact Or.inr (Or.inr (Or.inr hsend))

theorem run_cases_no_reset (w : Runner.World) (ts : List Runner.ValidatedTests)
    (ev : List Runner.Event) (rrs : List Runner.RunnerResult)
    (h : Runner.run_cases w ts = Except.ok (ev, rrs)) :
    Runner.Event.reset ∉ ev := by
  intro hmem
  rcases run_cases_event_mem w ts ev rrs h _ hmem with
    ⟨s, t, hs, _, _⟩ | ⟨n, hn⟩ | ⟨q, hq⟩ | ⟨n, hn⟩
  · exact Runner.Event.noConfusion hs
  · exact Runner.Event.noConfusion hn
  · exact Runner.Event.noConfusion hq
  · exact Runner.Event.noConfusion hn

theorem run_cases_no_hookSql (w : Runner.World) (ts : List Runner.ValidatedTests)
    (ev : List Runner.Event) (rrs : List Runner.RunnerResult)
    (h : Runner.run_cases w ts = Except.ok (ev, rrs))
    (hall : ∀ t ∈ ts, t.before_run = none) :
    ∀ s, Runner.Event.hookSql s ∉ ev := by
  intro s hmem
  rcases run_cases_event_mem w ts ev rrs h _ hmem with
    ⟨s', t, hs, ht, hb⟩ | ⟨n, hn⟩ | ⟨q, hq⟩ | ⟨n, hn⟩
  · exact hb (hall t ht)
  · exact Runner.Event.noConfusion hn
  · exact Runner.Event.noConfusion hq
  · exact Runner.Event.noConfusion hn

theorem run_group_hook_shape (w : Runner.World) (r : Option Bool) (stmts : List String)
    (hookEv : List Runner.Event)
    (h : Runner.run_group_hook w (some { reset_db := r, sql := some stmts }) =
      Except.ok hookEv) :
    (r = some true → hookEv = Runner.Event.reset :: stmts.map Runner.Event.hookSql) ∧
    (r ≠ some true → hookEv = stmts.map Runner.Event.hookSql) := by
  unfold Runner.run_group_hook at h
  dsimp only at h
  by_cases hr : r = some true
  · rw [if_pos hr] at h
    refine ⟨fun _ => ?_, fun hn => absurd hr hn⟩
    cases hrd : Runner.reset_database w.exec w.fetchRows with
    | error e => rw [hrd] at h; cases h
    | ok evs =>
      rw [hrd] at h
      dsimp only at h
      cases hrs : Runner.run_sql w.exec stmts with
      | error e => rw [hrs] at h; cases h
      | ok ev1 =>
        rw [hrs] at h
        dsimp only at h
        rw [Except.ok.injEq] at h
        rw [← h, run_sql_ok_shape w.exec stmts ev1 hrs]
        rfl
  · rw [if_neg hr] at h
    refine ⟨fun hp => absurd hp hr, fun _ => ?_⟩
    dsimp only at h
    cases hrs : Runner.run_sql w.exec stmts with
    | error e => rw [hrs] at h; cases h
    | ok ev1 =>
      rw [hrs] at h
      dsimp only at h
      rw [Except.ok.injEq] at h
      rw [← h, run_sql_ok_shape w.exec stmts ev1 hrs]
      rfl

theorem run_tests_hook_error (w : Runner.World) (g : Runner.TestGroups)
    (rest : List Runner.TestGroups) (err : Runner.RunnerError)
    (h : Runner.run_group_hook w g.before_group = Except.error err) :
    Runner.run_tests w (g :: rest) = Except.error err := by
  unfold Runner.run_tests Runner.run_group
  rw [h]

theorem run_group_hook_reset_error (w : Runner.World) (b : Runner.BeforeEach) (e : String)
    (hreq : b.reset_db = some true)
    (h : Runner.reset_database w.exec w.fetchRows = Except.error e) :
    Runner.run_group_hook w (some b) =
      Except.error (Runner.RunnerError.DatabaseError e) := by
  unfold Runner.run_group_hook
  dsimp only
  rw [hreq]
  simp [h]

theorem run_sql_head_error (exec : String → Except String Unit) (s : String)
    (rest : List String) (e : String) (h : exec s = Except.error e) :
    Runner.run_sql exec (s :: rest) =
      Except.error (Runner.RunnerError.DatabaseError e) := by
  unfold Runner.run_sql
  rw [h]

/-- C6: within one test case the coordinator issues every declared Sql
assertion query after the HTTP send and before the downstream channel
send, in declaration order; the event trace and the filled assertions do
not depend on the HTTP outcome (success or transport failure); got is
filled with the stringified first column of each returned row joined
with ", ", and a zero-row result yields the defined value Some("")
rather than an error. -/
theorem C6_sql_after_http :
    (∀ (w : Runner.World) (t : Runner.ValidatedTests) (ev : List Runner.Event)
        (rr : Runner.RunnerResult),
        Runner.run_case w t = Except.ok (ev, rr) →
        ∃ ev0, ev = ev0 ++ Runner.Event.httpSend t.name ::
                 (sqlQueries t.assertions).map Runner.Event.assertQuery ++
                 [Runner.Event.send t.name] ∧
          rr.assertions = (Runner.run_sql_assertions w.fetchAssert t.assertions).2)
  ∧ (∀ (w1 w2 : Runner.World) (t : Runner.ValidatedTests),
        w1.exec = w2.exec → w1.fetchAssert = w2.fetchAssert →
        Except.map Prod.fst (Runner.run_case w1 t) =
          Except.map Prod.fst (Runner.run_case w2 t) ∧
        Except.map (fun p => p.2.assertions) (Runner.run_case w1 t) =
          Except.map (fun p => p.2.assertions) (Runner.run_case w2 t))
  ∧ (∀ (fetch : String → Except String (List Runner.FirstCol)) (q : String)
        (rows : List Runner.FirstCol), fetch q = Except.ok rows →
        Runner.got_string fetch q =
          String.intercalate ", " (rows.map Runner.stringifyFirstCol))
  ∧ (∀ (fetch : String → Except String (List Runner.FirstCol)) (q : String)
        (expect : StringOrStrings) (g : Option String), fetch q = Except.ok [] →
        (Runner.run_sql_assertions fetch [Runner.Assertion.Sql q expect g]).2 =
          [Runner.Assertion.Sql q expect (some "")]) := by
  refine ⟨?_, ?_, ?_, ?_⟩
  · intro w t ev rr h
    rcases run_case_shape w t ev rr h with ⟨ev0, hev, hassert, _, _⟩
    exact ⟨ev0, hev, hassert⟩
  · intro w1 w2 t hexec hfetch
    unfold Runner.run_case
    rw [hexec, hfetch]
    cases hb : (match t.before_run with
                | some stmts => Runner.run_sql w2.exec stmts
                | none => Except.ok []) with
    | error e => exact ⟨rfl, rfl⟩
    | ok ev0 =>
      constructor
      · rfl
      · cases w1.http t.name <;> cases w2.http t.name <;> rfl
  · exact got_string_ok
  · intro fetch q expect g h
    simp [Runner.run_sql_assertions, got_string_ok fetch q [] h]
    rfl

/-- C6 witness: a zero-row query result fills got with Some("") and a
failing-free two-row fetch joins the stringified first columns. -/
theorem C6_witness :
    (Runner.run_sql_assertions (fun _ => Except.ok [])
        [Runner.Assertion.Sql "SELECT COUNT(*) FROM t" (StringOrStrings.Single "0") none]).2 =
      [Runner.Assertion.Sql "SELECT COUNT(*) FROM t" (StringOrStrings.Single "0") (some "")] ∧
    Runner.got_string
        (fun _ => Except.ok
          [{ asString := some "a", asI64 := none, asF64 := none, asBool := none,
             asOptString := none },
           { asString := none, asI64 := some 2, asF64 := none, asBool := none,
             asOptString := none }]) "q" = "a, 2" := by
  constructor
  · exact C6_sql_after_http.2.2.2 (fun _ => Except.ok [])
      "SELECT COUNT(*) FROM t" (StringOrStrings.Single "0") none rfl
  · have h := C6_sql_after_http.2.2.1
      (fun _ => Except.ok
        [{ asString := some "a", asI64 := none, asF64 := none, asBool := none,
           asOptString := none },
         { asString := none, asI64 := some 2, asF64 := none, asBool := none,
           asOptString := none }]) "q" _ rfl
    rw [h]
    rfl

/-- C7: for each group, run_group runs the hook events once, before all
of the group's test-case events; test cases emit no reset events (and no
hook SQL events when no per-test hook is declared); a hook with a
requested reset performs the reset first and then its SQL statements in
declared order; and a database error during reset or hook SQL makes
run_tests return an error instead of continuing. -/
theorem C7_group_hook_once :
    (∀ (w : Runner.World) (g : Runner.TestGroups) (ev : List Runner.Event)
        (rrs : List Runner.RunnerResult),
        Runner.run_group w g = Except.ok (ev, rrs) →
        ∃ hookEv caseEv,
          Runner.run_group_hook w g.before_group = Except.ok hookEv ∧
          Runner.run_cases w g.tests = Except.ok (caseEv, rrs) ∧
          ev = hookEv ++ caseEv ∧
          Runner.Event.reset ∉ caseEv ∧
          ((∀ t ∈ g.tests, t.before_run = none) →
            ∀ s, Runner.Event.hookSql s ∉ caseEv))
  ∧ (∀ (w : Runner.World) (r : Option Bool) (stmts : List String)
        (hookEv : List Runner.Event),
        Runner.run_group_hook w (some { reset_db := r, sql := some stmts }) =
          Except.ok hookEv →
        (r = some true →
          hookEv = Runner.Event.reset :: stmts.map Runner.Event.hookSql) ∧
        (r ≠ some true → hookEv = stmts.map Runner.Event.hookSql))
  ∧ (∀ (w : Runner.World) (g : Runner.TestGroups) (rest : List Runner.TestGroups)
        (err : Runner.RunnerError),
        Runner.run_group_hook w g.before_group = Except.error err →
        Runner.run_tests w (g :: rest) = Except.error err)
  ∧ (∀ (w : Runner.World) (b : Runner.BeforeEach) (e : String),
        b.reset_db = some true →
        Runner.reset_database w.exec w.fetchRows = Except.error e →
        Runner.run_group_hook w (some b) =
          Except.error (Runner.RunnerError.DatabaseError e))
  ∧ (∀ (exec : String → Except String Unit) (s : String) (rest : List String)
        (e : String),
        exec s = Except.error e →
        Runner.run_sql exec (s :: rest) =
          Except.error (Runner.RunnerError.DatabaseError e)) := by
  refine ⟨?_, run_group_hook_shape, run_tests_hook_error,
    run_group_hook_reset_error, run_sql_head_error⟩
  intro w g ev rrs h
  unfold Runner.run_group at h
  cases hh : Runner.run_group_hook w g.before_group with
  | error e => rw [hh] at h; cases h
  | ok hookEv =>
    rw [hh] at h
    cases hc : Runner.run_cases w g.tests with
    | error e => rw [hc] at h; cases h
    | ok p =>
      rw [hc] at h
      obtain ⟨caseEv, rrs'⟩ := p
      dsimp only at h
      rw [Except.ok.injEq, Prod.mk.injEq] at h
      obtain ⟨hev, hrrs⟩ := h
      subst hrrs
      exact ⟨hookEv, caseEv, rfl, rfl, hev.symm,
        run_cases_no_reset w g.tests caseEv rrs' hc,
        fun hall => run_cases_no_hookSql w g.tests caseEv rrs' hc hall⟩

/-- C7 witness: with an all-ok oracle the hook trace is the reset
followed by the single seed statement; with an oracle whose table
enumeration fails, a group that requests a reset makes the whole run
return the database error. -/
theorem C7_witness :
    ([Runner.Event.reset, Runner.Event.hookSql "INSERT INTO t VALUES (1)"] =
      Runner.Event.reset ::
        ["INSERT INTO t VALUES (1)"].map Runner.Event.hookSql) ∧
    Runner.run_tests
        { exec := fun _ => Except.ok (), fetchRows := fun _ => Except.error "enum failed",
          fetchAssert := fun _ => Except.ok [], http := fun _ => Except.error "no http" }
        [{ name := "g", before_group := some { reset_db := some true, sql := some [] },
           tests := [] }] =
      Except.error (Runner.RunnerError.DatabaseError "enum failed") := by
  constructor
  · exact (C7_group_hook_once.2.1
      { exec := fun _ => Except.ok (), fetchRows := fun _ => Except.ok ["t"],
        fetchAssert := fun _ => Except.ok [], http := fun _ => Except.error "no http" }
      (some true) ["INSERT INTO t VALUES (1)"]
      [Runner.Event.reset, Runner.Event.hookSql "INSERT INTO t VALUES (1)"]
      rfl).1 rfl
  · exact C7_group_hook_once.2.2.1
      { exec := fun _ => Except.ok (), fetchRows := fun _ => Except.error "enum failed",
        fetchAssert := fun _ => Except.ok [], http := fun _ => Except.error "no http" }
      { name := "g", before_group := some { reset_db := some true, sql := some [] },
        tests := [] }
      [] (Runner.RunnerError.DatabaseError "enum failed") rfl

/-- C10: a database error while executing a Sql assertion query is not
fatal and is not surfaced as a DbError: run_sql_assertions (which has no
error return) writes the text "SQL error: ..." into that assertion's got
field, leaving every other assertion untouched, whereas a hook SQL
statement error makes run_sql return a DatabaseError. -/
theorem C10_sql_assert_error_nonfatal :
    (∀ (fetch : String → Except String (List Runner.FirstCol)) (q e : String),
        fetch q = Except.error e → Runner.got_string fetch q = "SQL error: " ++ e)
  ∧ (∀ (fetch : String → Except String (List Runner.FirstCol))
        (pre post : List Runner.Assertion) (q : String)
        (expect : StringOrStrings) (g : Option String),
        (Runner.run_sql_assertions fetch
            (pre ++ Runner.Assertion.Sql q expect g :: post)).2 =
          (Runner.run_sql_assertions fetch pre).2 ++
            Runner.Assertion.Sql q expect (some (Runner.got_string fetch q)) ::
            (Runner.run_sql_assertions fetch post).2)
  ∧ (∀ (exec : String → Except String Unit) (s : String) (rest : List String)
        (e : String),
        exec s = Except.error e →
        Runner.run_sql exec (s :: rest) =
          Except.error (Runner.RunnerError.DatabaseError e)) := by
  refine ⟨got_string_error, ?_, run_sql_head_error⟩
  intro fetch pre post q expect g
  rw [run_sql_assertions_snd_append]
  simp [Runner.run_sql_assertions]

/-- C10 witness: a failing assertion query turns into the formatted got
text, while the same failure in hook SQL is a DatabaseError. -/
theorem C10_witness :
    Runner.got_string (fun _ => Except.error "boom") "q" = "SQL error: boom" ∧
    Runner.run_sql (fun _ => Except.error "db down") ["s"] =
      Except.error (Runner.RunnerError.DatabaseError "db down") := by
  exact ⟨C10_sql_assert_error_nonfatal.1 (fun _ => Except.error "boom") "q" "boom" rfl,
         C10_sql_assert_error_nonfatal.2.2 (fun _ => Except.error "db down") "s" [] "db down" rfl⟩

end TestQuest
